import Mathlib

/-!
Verification of the hub delivery / route orchestration engine
(`packages/api-python/app/routers/hub_routes.py`, `hub_delivery.py`,
`hub_orders.py` and `app/models/delivery_order.py`).

Modelling conventions used throughout this development:
* database ids are `Nat`; a SQL `NULL` foreign key is `Option.none`;
* timestamps are abstract clock ticks (`Nat`, in seconds), so the Python
  `timedelta(minutes=10)` becomes `+ 600`;
* Python floats (weights, capacities) are modelled as exact rationals `ℚ`;
* a table is a `List` of rows kept in insertion order, which is also
  `created_at` order because every insert stamps the current time; a query
  `order by created_at desc limit 1` is therefore `List.getLast?` of the
  filtered rows;
* `raise HTTPException(status_code=..., detail=...)` is an `ApiError` value
  carrying the same numeric status code and detail string; a handler that
  raises before performing any write returns its input state unchanged.
-/

namespace LMA

/-- Embedding of FastAPI `HTTPException` as raised by the routers: the numeric
status code together with the `detail` string. -/
inductive ApiError where
  | notFound (detail : String)
  | badRequest (detail : String)
  | serverError (detail : String)
deriving Repr, DecidableEq

/-- Numeric HTTP status code of an `ApiError`. -/
def ApiError.statusCode : ApiError → Nat
  | .notFound _ => 404
  | .badRequest _ => 400
  | .serverError _ => 500

/-- Row of the `delivery_orders` table, restricted to the columns read or
written by the operations under verification. -/
structure Order where
  id : Nat
  hub_id : Nat := 1
  status : String := "pending"
  route_id : Option Nat := none
  driver_id : Option Nat := none
  total_weight_kg : Option ℚ := none
  delivery_postal_code : Option String := none
  delivery_city : Option String := none
  customer_phone : String := "9999999999"
  assigned_at : Option Nat := none
  out_for_delivery_at : Option Nat := none
  delivered_at : Option Nat := none
  failed_at : Option Nat := none
  returned_at : Option Nat := none
deriving Repr, DecidableEq

/-- Row of the `hub_vehicles` table (columns used by the planner). -/
structure Vehicle where
  id : Nat
  capacity_kg : Option ℚ := none
deriving Repr, DecidableEq

/-- Byte-wise lexicographic comparison of char lists, the order Python uses
when comparing strings in `list.sort`. -/
def charListLt : List Char → List Char → Bool
  | _, [] => false
  | [], _ :: _ => true
  | a :: as, b :: bs =>
    if a.toNat < b.toNat then true
    else if b.toNat < a.toNat then false
    else charListLt as bs

/-- Lexicographic strict order on strings (Python `<` on `str`). -/
def strLtB (a b : String) : Bool := charListLt a.data b.data

/-- Sort key of `remaining_orders.sort(key=lambda o: (o.get("delivery_postal_code") or "",
o.get("delivery_city") or ""))`: the pair of strings with `None` defaulted to `""`. -/
def orderSortKey (o : Order) : String × String :=
  (o.delivery_postal_code.getD "", o.delivery_city.getD "")

/-- Non-strict lexicographic order on the `(postal_code, city)` sort keys. -/
def orderKeyLe (a b : Order) : Bool :=
  strLtB (orderSortKey a).1 (orderSortKey b).1 ||
    ((orderSortKey a).1 == (orderSortKey b).1 &&
      (strLtB (orderSortKey a).2 (orderSortKey b).2 ||
        (orderSortKey a).2 == (orderSortKey b).2))

/-- Insert `x` after every already-placed element `y` with `le y x`; the
building block of a stable insertion sort. -/
def insertAfterLe (le : α → α → Bool) (x : α) : List α → List α
  | [] => [x]
  | y :: ys => if le y x then y :: insertAfterLe le x ys else x :: y :: ys

/-- Stable ascending sort (insert each element, in original order, after its
equals), modelling Python's stable `list.sort`. -/
def pySort (le : α → α → Bool) (l : List α) : List α :=
  l.foldl (fun acc x => insertAfterLe le x acc) []

/-- Weight of an order as the planner reads it: `order.get("total_weight_kg") or 0`,
so a missing weight counts as 0 (and a stored 0.0 also reads back as 0). -/
def orderWeight (o : Order) : ℚ := o.total_weight_kg.getD 0

/-- Capacity bound the planner actually uses: `vehicle.get("capacity_kg") or 999999`.
Python `or` takes the fallback both when the column is NULL and when it is 0,
because `0` is falsy. -/
def effectiveCapacity (v : Vehicle) : ℚ :=
  match v.capacity_kg with
  | none => 999999
  | some c => if c = 0 then 999999 else c

/-- One vehicle's fill pass of `auto_plan_routes` (the `for order in
remaining_orders` loop): every order is examined in sequence; an order is
taken when `current_weight + order_weight <= capacity_kg` and fewer than 30
orders have been taken, otherwise it is appended to `still_remaining`.
Arguments mirror the loop state `(route_orders, current_weight,
still_remaining)`. -/
def fillLoop (cap : ℚ) (routeOrders : List Order) (w : ℚ) (still : List Order) :
    List Order → List Order × ℚ × List Order
  | [] => (routeOrders, w, still)
  | o :: rest =>
    if w + orderWeight o ≤ cap ∧ routeOrders.length < 30 then
      fillLoop cap (routeOrders ++ [o]) (w + orderWeight o) still rest
    else
      fillLoop cap routeOrders w (still ++ [o]) rest

/-- Route record inserted into `delivery_routes` by `auto_plan_routes`,
together with the orders that became its stops (in stop sequence order). -/
structure PlannedRoute where
  vehicle : Vehicle
  status : String
  total_stops : Nat
  total_weight_kg : ℚ
  orders : List Order
deriving Repr, DecidableEq

/-- Vehicle loop of `auto_plan_routes`: for each vehicle in input order, stop
if no orders remain, run the fill pass, skip the vehicle if it collected
nothing, otherwise record a `planned` route. Returns the created routes, the
running `assigned_count` and the final `remaining_orders`. -/
def planLoop : List Vehicle → List Order → List PlannedRoute × Nat × List Order
  | [], remaining => ([], 0, remaining)
  | v :: vs, remaining =>
    if remaining = [] then ([], 0, remaining)
    else
      let fill := fillLoop (effectiveCapacity v) [] 0 [] remaining
      if fill.1 = [] then planLoop vs fill.2.2
      else
        let r : PlannedRoute :=
          { vehicle := v, status := "planned", total_stops := fill.1.length,
            total_weight_kg := fill.2.1, orders := fill.1 }
        let rest := planLoop vs fill.2.2
        (r :: rest.1, fill.1.length + rest.2.1, rest.2.2)

/-- Response body of `auto_plan_routes` (`AutoPlanResponse`). -/
structure AutoPlanResult where
  routes_created : Nat
  total_orders_assigned : Nat
  unassigned_orders : Nat
  routes : List PlannedRoute
deriving Repr, DecidableEq

/-- Geographic-proxy sort of the pending orders by `(postal_code, city)`. -/
def sortRemainingOrders (orders : List Order) : List Order :=
  pySort orderKeyLe orders

/-- Embedding of `auto_plan_routes`: `orders` is the fetched list of pending,
route-less orders for the hub and date, `vehicles` the fetched list of
available active vehicles. Empty order list returns the zero response before
vehicles are consulted; empty vehicle list raises HTTP 400; otherwise the
sorted orders are distributed by `planLoop`. -/
def auto_plan_routes (orders : List Order) (vehicles : List Vehicle) :
    Except ApiError AutoPlanResult :=
  if orders = [] then .ok ⟨0, 0, 0, []⟩
  else if vehicles = [] then .error (.badRequest "No available vehicles at this hub")
  else
    let res := planLoop vehicles (sortRemainingOrders orders)
    .ok ⟨res.1.length, res.2.1, res.2.2.length, res.1⟩

/-- Database-assigned ids for the created routes: the k-th inserted route row
gets serial id k (1-based). -/
def assignRouteIds (routes : List PlannedRoute) : List (Nat × PlannedRoute) :=
  routes.enum.map fun p => (p.1 + 1, p.2)

/-- Per-stop order update performed by `auto_plan_routes`: the write is
`update({"route_id": route_id})`, touching no other column. -/
def autoPlanOrderUpdate (rid : Nat) (o : Order) : Order :=
  { o with route_id := some rid }

/-- All `delivery_orders` rows as rewritten by a finished auto-plan run: each
order of each created route with its new `route_id`. -/
def autoPlanUpdatedOrders (routes : List PlannedRoute) : List Order :=
  ((assignRouteIds routes).map fun p => p.2.orders.map (autoPlanOrderUpdate p.1)).flatten

/-- Row of the `delivery_routes` table (columns used by dispatch). -/
structure RouteRec where
  id : Nat
  hub_id : Nat := 1
  driver_id : Option Nat := none
  vehicle_id : Option Nat := none
  status : String := "planned"
  start_time : Option Nat := none
  total_stops : Nat := 0
deriving Repr, DecidableEq

/-- Row of the `otp_tokens` table. -/
structure OtpToken where
  id : Nat
  order_id : Nat
  otp_code : String
  otp_type : String
  is_verified : Bool
  expires_at : Nat
  created_at : Nat
deriving Repr, DecidableEq

/-- Shared database state touched by the router handlers: routes, orders,
driver statuses (driver id paired with its `status` column) and OTP tokens.
Each table list is kept in insertion order. -/
structure Db where
  routes : List RouteRec := []
  orders : List Order := []
  driverStatuses : List (Nat × String) := []
  tokens : List OtpToken := []
deriving Repr, DecidableEq

/-- Embedding of `dispatch_route`: fetch the route (404 if absent), raise 400
when `driver_id` or `vehicle_id` is falsy (NULL), otherwise set the route to
`in_progress` with `start_time = now`, move every order on the route to
`out_for_delivery`, and set the driver status to `on_delivery`. On an error
path the handler raises before any write, so the state is returned unchanged. -/
def dispatch_route (s : Db) (route_id : Nat) (now : Nat) :
    Db × Except ApiError RouteRec :=
  match s.routes.find? (fun r => r.id = route_id) with
  | none => (s, .error (.notFound "Route not found"))
  | some route =>
    if route.driver_id = none ∨ route.vehicle_id = none then
      (s, .error (.badRequest "Route must have driver and vehicle assigned before dispatch"))
    else
      let updated : RouteRec := { route with status := "in_progress", start_time := some now }
      let routes := s.routes.map fun r => if r.id = route_id then updated else r
      let orders := s.orders.map fun o =>
        if o.route_id = some route_id then
          { o with status := "out_for_delivery", out_for_delivery_at := some now }
        else o
      let drivers := s.driverStatuses.map fun d =>
        if some d.1 = route.driver_id then (d.1, "on_delivery") else d
      ({ s with routes := routes, orders := orders, driverStatuses := drivers }, .ok updated)

/-- Embedding of `return_to_hub`: unconditionally update the order row to
`status = "returned_to_hub"` with `returned_at = now`; 404 only when no row
matched. The current status is never read. -/
def return_to_hub (s : Db) (order_id : Nat) (now : Nat) :
    Db × Except ApiError String :=
  if s.orders.any (fun o => o.id = order_id) then
    ({ s with orders := s.orders.map fun o =>
        if o.id = order_id then { o with status := "returned_to_hub", returned_at := some now }
        else o },
      .ok "Order marked as returned to hub")
  else (s, .error (.notFound "Order not found"))

/-- Patch body `DeliveryOrderUpdate` restricted to the columns of our `Order`
row; every field is optional and `status` is a plain unvalidated string.
`none` models a field absent from the request (`exclude_unset`). The model
omits the other free-text patch columns (addresses, product info, ...), which
are handled identically to `customer_phone` and never touch `status`,
`route_id` or `driver_id`. -/
structure OrderUpdate where
  customer_phone : Option String := none
  total_weight_kg : Option ℚ := none
  status : Option String := none
deriving Repr, DecidableEq

/-- True when the patch body is empty (`model_dump(exclude_unset=True)` is
falsy), which makes the handler raise 400. -/
def OrderUpdate.isEmptyPatch (u : OrderUpdate) : Bool :=
  u.customer_phone = none && u.total_weight_kg = none && u.status = none

/-- Column-wise application of the patch to an order row. -/
def applyOrderUpdate (u : OrderUpdate) (o : Order) : Order :=
  { o with
    customer_phone := u.customer_phone.getD o.customer_phone,
    total_weight_kg := match u.total_weight_kg with
      | none => o.total_weight_kg
      | some w => some w,
    status := u.status.getD o.status }

/-- Embedding of `update_order`: 400 on an empty patch, 404 when the order is
absent, otherwise write exactly the supplied columns — the current `status` is
never read and the new one is not checked against any transition table. -/
def update_order (s : Db) (order_id : Nat) (u : OrderUpdate) :
    Db × Except ApiError Order :=
  if u.isEmptyPatch then (s, .error (.badRequest "No fields to update"))
  else
    match s.orders.find? (fun o => o.id = order_id) with
    | none => (s, .error (.notFound "Order not found"))
    | some o =>
      ({ s with orders := s.orders.map fun r =>
          if r.id = order_id then applyOrderUpdate u r else r },
        .ok (applyOrderUpdate u o))

/-- Embedding of `cancel_order`: fetch the order (404 if absent), refuse with
400 when its status is `delivered` or `cancelled`, otherwise write
`status = "cancelled"`. -/
def cancel_order (s : Db) (order_id : Nat) : Db × Except ApiError String :=
  match s.orders.find? (fun o => o.id = order_id) with
  | none => (s, .error (.notFound "Order not found"))
  | some o =>
    if o.status = "delivered" ∨ o.status = "cancelled" then
      (s, .error (.badRequest ("Cannot cancel order with status: " ++ o.status)))
    else
      ({ s with orders := s.orders.map fun r =>
          if r.id = order_id then { r with status := "cancelled" } else r },
        .ok "Order cancelled")

/-- Decimal digit character for `random.choices(string.digits, k=length)`. -/
def digitChar (d : Fin 10) : Char := Char.ofNat (48 + d.val)

/-- Embedding of `generate_otp`: `length` digits drawn from the random source
`rand` (position `i` gets digit `rand i`). -/
def generate_otp (rand : Nat → Fin 10) (length : Nat := 6) : String :=
  String.mk ((List.range length).map fun i => digitChar (rand i))

/-- Response body `OtpResponse`. -/
structure OtpResponse where
  success : Bool
  message : String
  expires_at : Option Nat := none
deriving Repr, DecidableEq

/-- Unverified tokens currently stored for one `(order_id, otp_type)` key. -/
def unverifiedTokens (s : Db) (order_id : Nat) (otp_type : String) : List OtpToken :=
  s.tokens.filter fun t =>
    t.order_id = order_id ∧ t.otp_type = otp_type ∧ t.is_verified = false

/-- Token row inserted by `send_otp`: code from `generate_otp rand`, expiry
`now + 600` (10 minutes), unverified; `newId` is the database-assigned row id. -/
def freshOtpToken (order_id : Nat) (otp_type : String) (rand : Nat → Fin 10)
    (now newId : Nat) : OtpToken :=
  { id := newId, order_id := order_id, otp_code := generate_otp rand,
    otp_type := otp_type, is_verified := false, expires_at := now + 600,
    created_at := now }

/-- Masked destination of the confirmation message:
`phone[-4:].rjust(len(phone), "*")` keeps the last 4 characters and left-pads
with stars to the original length. -/
def maskPhone (p : String) : String :=
  String.mk (List.replicate (p.data.length - 4) '*' ++ p.data.drop (p.data.length - 4))

/-- Embedding of `send_otp`: 404 when the order is absent; otherwise mark
every unverified token for `(order_id, otp_type)` as verified, then insert the
one fresh token `freshOtpToken order_id otp_type rand now newId` and confirm
to the masked customer phone. -/
def send_otp (s : Db) (order_id : Nat) (otp_type : String) (rand : Nat → Fin 10)
    (now : Nat) (newId : Nat) : Db × Except ApiError OtpResponse :=
  match s.orders.find? (fun o => o.id = order_id) with
  | none => (s, .error (.notFound "Order not found"))
  | some o =>
    let invalidated := s.tokens.map fun t =>
      if t.order_id = order_id ∧ t.otp_type = otp_type ∧ t.is_verified = false then
        { t with is_verified := true }
      else t
    ({ s with tokens := invalidated ++ [freshOtpToken order_id otp_type rand now newId] },
      .ok { success := true, message := "OTP sent to " ++ maskPhone o.customer_phone,
            expires_at := some (now + 600) })

/-- Embedding of `verify_otp`: fetch the most recently created unverified
token for `(order_id, otp_type)` (the last matching row, since the table is in
`created_at` order); raise 400 `"No active OTP found"` when there is none;
answer `success = false` on a code mismatch or when `expires_at < now`;
otherwise mark that token verified and answer success. -/
def verify_otp (s : Db) (order_id : Nat) (otp_type : String) (otp_code : String)
    (now : Nat) : Db × Except ApiError OtpResponse :=
  match (unverifiedTokens s order_id otp_type).getLast? with
  | none => (s, .error (.badRequest "No active OTP found"))
  | some token =>
    if token.otp_code ≠ otp_code then
      (s, .ok { success := false, message := "Invalid OTP" })
    else if token.expires_at < now then
      (s, .ok { success := false, message := "OTP has expired" })
    else
      ({ s with tokens := s.tokens.map fun t =>
          if t.id = token.id then { t with is_verified := true } else t },
        .ok { success := true, message := "OTP verified successfully" })

/-- One CSV data row as produced by `csv.DictReader`: header cell paired with
the row's cell value. -/
abbrev Row := List (String × String)

/-- ASCII lowering of one character (`str.lower` on the ASCII headers used by
the import aliases). -/
def asciiLower (c : Char) : Char :=
  if 65 ≤ c.toNat ∧ c.toNat ≤ 90 then Char.ofNat (c.toNat + 32) else c

/-- Whitespace test for `str.strip`. -/
def isSpaceChar (c : Char) : Bool := c == ' ' || c == '\t' || c == '\n' || c == '\r'

/-- Python `str.lower`. -/
def pyLower (s : String) : String := String.mk (s.data.map asciiLower)

/-- Drop leading and trailing whitespace from a char list. -/
def stripList (cs : List Char) : List Char :=
  ((cs.dropWhile isSpaceChar).reverse.dropWhile isSpaceChar).reverse

/-- Python `str.strip`. -/
def pyStrip (s : String) : String := String.mk (stripList s.data)

/-- Lower-and-strip every header cell, modelling the dict comprehension
`row_lower = {k.lower().strip(): v for k, v in row.items()}` (kept as an
association list; a duplicate key resolves to the last occurrence, as dict
insertion does). -/
def rowLower (row : Row) : Row := row.map fun kv => (pyStrip (pyLower kv.1), kv.2)

/-- Lookup in an association list with Python-dict semantics: the last binding
of the key wins. -/
def lookupLastVal (l : Row) (k : String) : Option String :=
  ((l.filter fun kv => kv.1 == k).getLast?).map fun kv => kv.2

/-- Embedding of the `find_field` helper of `upload_csv`: return the value of
the first alias present as a (lowered, stripped) header of the row. -/
def find_field (row : Row) (aliases : List String) : Option String :=
  aliases.findSome? fun a => lookupLastVal (rowLower row) (pyLower a)

/-- Header aliases of the four required fields (`field_map` in the source). -/
def field_map : List (String × List String) :=
  [("customer_name", ["customer_name", "customer name", "name", "recipient_name", "recipient name"]),
   ("customer_phone", ["customer_phone", "customer phone", "phone", "mobile", "contact"]),
   ("delivery_address", ["delivery_address", "delivery address", "address", "drop_address", "drop address"]),
   ("product_description", ["product_description", "product description", "product", "item", "items", "description"])]

/-- Aliases of one required field by its logical name. -/
def requiredAliases (name : String) : List String :=
  ((field_map.filter fun p => p.1 == name).getLast?.map fun p => p.2).getD []

/-- Header aliases of the optional fields (`optional_map` in the source), in
source iteration order. -/
def optional_map : List (String × List String) :=
  [("customer_email", ["customer_email", "customer email", "email"]),
   ("customer_alt_phone", ["customer_alt_phone", "alt_phone", "alternate phone"]),
   ("delivery_city", ["delivery_city", "city"]),
   ("delivery_state", ["delivery_state", "state"]),
   ("delivery_postal_code", ["delivery_postal_code", "postal_code", "pincode", "zip"]),
   ("seller_name", ["seller_name", "seller", "vendor"]),
   ("seller_order_ref", ["seller_order_ref", "order_ref", "awb", "reference", "order_id"]),
   ("marketplace", ["marketplace", "channel", "source_marketplace"]),
   ("product_sku", ["product_sku", "sku"]),
   ("product_category", ["product_category", "category"]),
   ("package_count", ["package_count", "packages", "qty", "quantity"]),
   ("total_weight_kg", ["total_weight_kg", "weight", "weight_kg"]),
   ("total_volume_cft", ["total_volume_cft", "volume", "volume_cft"]),
   ("is_cod", ["is_cod", "cod", "payment_mode"]),
   ("cod_amount", ["cod_amount", "cod_value"]),
   ("declared_value", ["declared_value", "value", "order_value"]),
   ("priority", ["priority"]),
   ("scheduled_date", ["scheduled_date", "delivery_date", "date"]),
   ("delivery_slot", ["delivery_slot", "slot", "time_slot"])]

/-- Numeric value of a decimal digit character. -/
def digitVal (c : Char) : Nat := c.toNat - 48

/-- Parse a non-empty all-digit char list as a natural number. -/
def parseDigits? (cs : List Char) : Option Nat :=
  if cs ≠ [] ∧ cs.all Char.isDigit then
    some (cs.foldl (fun n c => 10 * n + digitVal c) 0)
  else none

/-- Modelled Python `int(value)` (the value has already been stripped):
optional sign followed by decimal digits; anything else raises, which the
per-row `try` turns into a row failure. Exotic accepted forms (underscores,
unicode digits) are not modelled. -/
def pyInt? (s : String) : Option Int :=
  match s.data with
  | '-' :: rest => (parseDigits? rest).map fun n => -(n : Int)
  | '+' :: rest => (parseDigits? rest).map fun n => (n : Int)
  | cs => (parseDigits? cs).map fun n => (n : Int)

/-- Split a char list at the first dot. -/
def splitDot : List Char → List Char × Option (List Char)
  | [] => ([], none)
  | '.' :: rest => ([], some rest)
  | c :: rest =>
    let p := splitDot rest
    (c :: p.1, p.2)

/-- Modelled Python `float(value)`: plain decimal notation with optional sign
and at most one dot (scientific notation, `inf` and `nan` are not modelled);
the result is the exact rational the literal denotes. -/
def pyFloat? (s : String) : Option ℚ :=
  let unsigned : List Char → Option ℚ := fun cs =>
    match splitDot cs with
    | (intPart, none) => (parseDigits? intPart).map fun n => (n : ℚ)
    | (intPart, some fracPart) =>
      if intPart = [] ∧ fracPart = [] then none
      else
        match (if intPart = [] then some 0 else parseDigits? intPart),
            (if fracPart = [] then some 0 else parseDigits? fracPart) with
        | some ip, some fp => some ((ip : ℚ) + (fp : ℚ) / ((10 : ℚ) ^ fracPart.length))
        | _, _ => none
  match s.data with
  | '-' :: rest => (unsigned rest).map fun q => -q
  | '+' :: rest => unsigned rest
  | cs => unsigned cs

/-- Typed cell value after the coercions of `upload_csv`. -/
inductive CsvVal where
  | s (v : String)
  | i (v : Int)
  | q (v : ℚ)
  | b (v : Bool)
deriving Repr, DecidableEq

/-- Per-field coercion of an optional CSV value (the value is already
stripped): booleans for `is_cod`, `int` for `package_count`, `float` for the
weight / volume / money fields, the raw string otherwise. A parse failure is
the raised exception's message. -/
def coerceOptionalField (name value : String) : Except String CsvVal :=
  if name = "is_cod" then
    .ok (.b (["true", "yes", "1", "cod"].contains (pyLower value)))
  else if name = "package_count" then
    match pyInt? value with
    | some n => .ok (.i n)
    | none => .error ("invalid literal for int() with base 10: " ++ value)
  else if name = "total_weight_kg" ∨ name = "total_volume_cft" ∨
      name = "cod_amount" ∨ name = "declared_value" then
    match pyFloat? value with
    | some x => .ok (.q x)
    | none => .error ("could not convert string to float: " ++ value)
  else .ok (.s value)

/-- Extraction loop over `optional_map`: skip a field whose value is absent or
blank (`if value and value.strip()`), coerce the stripped value otherwise; the
first coercion failure aborts the row. -/
def extractOptionalFields (row : Row) :
    List (String × List String) → Except String (List (String × CsvVal))
  | [] => .ok []
  | (name, aliases) :: rest =>
    match find_field row aliases with
    | none => extractOptionalFields row rest
    | some v =>
      if v ≠ "" ∧ pyStrip v ≠ "" then
        match coerceOptionalField name (pyStrip v) with
        | .error e => .error e
        | .ok cv => (extractOptionalFields row rest).map fun l => (name, cv) :: l
      else extractOptionalFields row rest

/-- Order row inserted by `upload_csv` for one successful CSV row. The
uuid-generated `order_number` is pure fresh randomness and is not modelled;
`extra` holds the coerced optional columns. Note the inserted row has no
`status`, `route_id` or `driver_id` value (they take their column defaults). -/
structure CsvOrder where
  hub_id : Nat
  source : String
  import_batch_id : Nat
  customer_name : String
  customer_phone : String
  delivery_address : String
  product_description : String
  extra : List (String × CsvVal)
deriving Repr, DecidableEq

/-- Processing of one CSV data row inside the per-row `try`: locate the four
required fields (a missing or empty one raises `Missing ...`), then coerce the
optional fields; any raised message fails just this row. -/
def process_row (hub_id import_id : Nat) (row : Row) : Except String CsvOrder :=
  if (find_field row (requiredAliases "customer_name")).getD "" = "" then
    .error "Missing customer_name"
  else if (find_field row (requiredAliases "customer_phone")).getD "" = "" then
    .error "Missing customer_phone"
  else if (find_field row (requiredAliases "delivery_address")).getD "" = "" then
    .error "Missing delivery_address"
  else if (find_field row (requiredAliases "product_description")).getD "" = "" then
    .error "Missing product_description"
  else
    match extractOptionalFields row optional_map with
    | .error e => .error e
    | .ok extra =>
      .ok { hub_id := hub_id, source := "csv", import_batch_id := import_id,
            customer_name := pyStrip ((find_field row (requiredAliases "customer_name")).getD ""),
            customer_phone := pyStrip ((find_field row (requiredAliases "customer_phone")).getD ""),
            delivery_address := pyStrip ((find_field row (requiredAliases "delivery_address")).getD ""),
            product_description := pyStrip ((find_field row (requiredAliases "product_description")).getD ""),
            extra := extra }

/-- Row loop of `upload_csv` (`for i, row in enumerate(rows, 1)`): returns
`(processed, failed, errors, created orders)`; `i` is the 1-based number of
the first row of the suffix being processed. -/
def uploadLoop (hub_id import_id : Nat) (i : Nat) :
    List Row → Nat × Nat × List (Nat × String) × List CsvOrder
  | [] => (0, 0, [], [])
  | row :: rest =>
    let r := uploadLoop hub_id import_id (i + 1) rest
    match process_row hub_id import_id row with
    | .ok o => (r.1 + 1, r.2.1, r.2.2.1, o :: r.2.2.2)
    | .error e => (r.1, r.2.1 + 1, (i, e) :: r.2.2.1, r.2.2.2)

/-- Finalized `order_imports` row. -/
structure ImportBatch where
  id : Nat
  hub_id : Nat
  total_records : Nat
  processed : Nat
  failed : Nat
  error_log : Option (List (Nat × String))
  status : String
deriving Repr, DecidableEq

/-- Response body of `upload_csv`. -/
structure ImportSummary where
  import_id : Nat
  total_records : Nat
  processed : Nat
  failed : Nat
  errors : List (Nat × String)
deriving Repr, DecidableEq

/-- Full outcome of one CSV import run: the finalized batch record, the HTTP
response, and the `delivery_orders` rows inserted. -/
structure UploadCsvResult where
  batch : ImportBatch
  summary : ImportSummary
  createdOrders : List CsvOrder
deriving Repr, DecidableEq

/-- Embedding of `upload_csv` after the `.csv`-extension guard: process every
data row, then finalize the batch record (`error_log` is NULL when no error
occurred, the full list otherwise; status `completed` unless nothing at all
was processed) and answer with the counts and the first 20 errors. -/
def upload_csv (hub_id import_id : Nat) (rows : List Row) : UploadCsvResult :=
  let l := uploadLoop hub_id import_id 1 rows
  let batch : ImportBatch :=
    { id := import_id, hub_id := hub_id, total_records := rows.length,
      processed := l.1, failed := l.2.1,
      error_log := if l.2.2.1 = [] then none else some l.2.2.1,
      status := if l.2.1 = 0 then "completed" else if l.1 > 0 then "completed" else "failed" }
  { batch := batch,
    summary := { import_id := import_id, total_records := rows.length,
                 processed := l.1, failed := l.2.1, errors := l.2.2.1.take 20 },
    createdOrders := l.2.2.2 }

/-- True when some required field of the row is missing under all its aliases
or present but empty (the conditions that make the row fail validation). -/
def requiredMissing (row : Row) : Bool :=
  ((find_field row (requiredAliases "customer_name")).getD "" == "") ||
  ((find_field row (requiredAliases "customer_phone")).getD "" == "") ||
  ((find_field row (requiredAliases "delivery_address")).getD "" == "") ||
  ((find_field row (requiredAliases "product_description")).getD "" == "")

/-- Total weight of a list of orders, missing weights counting as 0. -/
def sumWeights (l : List Order) : ℚ := (l.map orderWeight).sum

/-- Specification of one fill pass as the amended claim C8 states it: scan the
whole remaining list in order; take an order when the cumulative weight plus
its weight fits the capacity and fewer than 30 orders are taken so far, defer
it otherwise — and in either case continue with the rest of the list. `w` is
the cumulative weight and `stops` the number of orders taken so far. -/
def scanFill (cap : ℚ) (w : ℚ) (stops : Nat) : List Order → List Order × List Order
  | [] => ([], [])
  | o :: rest =>
    if w + orderWeight o ≤ cap ∧ stops < 30 then
      let p := scanFill cap (w + orderWeight o) (stops + 1) rest
      (o :: p.1, p.2)
    else
      let p := scanFill cap w stops rest
      (p.1, o :: p.2)

/-- Specification of one fill pass as claim C8 literally states it: pull
orders off the front of the list and, at the first order failing the
cumulative check, defer that order and every order after it. -/
def specFrontFill (cap : ℚ) (w : ℚ) (taken : List Order) :
    List Order → List Order × List Order
  | [] => (taken, [])
  | o :: rest =>
    if w + orderWeight o ≤ cap ∧ taken.length < 30 then
      specFrontFill cap (w + orderWeight o) (taken ++ [o]) rest
    else (taken, o :: rest)

/-- Capacity bound exactly as claim C2 states it: whenever the vehicle's
`capacity_kg` column is set, the route's weight must not exceed it. -/
def claimedCapacityRespected (r : PlannedRoute) : Prop :=
  ∀ c, r.vehicle.capacity_kg = some c → r.total_weight_kg ≤ c

instance (r : PlannedRoute) : Decidable (claimedCapacityRespected r) :=
  match h : r.vehicle.capacity_kg with
  | none => .isTrue (fun c hc => by rw [h] at hc; cases hc)
  | some c =>
    if hle : r.total_weight_kg ≤ c then
      .isTrue (fun d hd => by rw [h] at hd; cases hd; exact hle)
    else
      .isFalse (fun hall => hle (hall c h))

/-- Terminal order statuses named by the claims (modelled from the spec). -/
def terminalStatus (s : String) : Bool :=
  s == "delivered" || s == "cancelled" || s == "returned_to_hub"

/-- Directed edges of the order status transition graph, modelled from the
spec and claim C9: `pending → assigned → out_for_delivery → delivered | failed
→ returned_to_hub`, with `cancelled` reachable from any non-terminal state. -/
def specOrderEdge (a b : String) : Bool :=
  (a == "pending" && b == "assigned") ||
  (a == "assigned" && b == "out_for_delivery") ||
  (a == "out_for_delivery" && (b == "delivered" || b == "failed")) ||
  ((a == "delivered" || a == "failed") && b == "returned_to_hub") ||
  (!terminalStatus a && b == "cancelled")

/-- Pairing invariant exactly as claim C10 states it: `route_id` and
`driver_id` are both set or both null. -/
def routeDriverPaired (o : Order) : Bool :=
  o.route_id.isSome == o.driver_id.isSome

@[simp] lemma sumWeights_nil : sumWeights [] = 0 := rfl

@[simp] lemma sumWeights_cons (o : Order) (l : List Order) :
    sumWeights (o :: l) = orderWeight o + sumWeights l := by
  simp [sumWeights]

lemma scanFill_length (cap : ℚ) :
    ∀ (l : List Order) (w : ℚ) (stops : Nat),
      (scanFill cap w stops l).1.length + (scanFill cap w stops l).2.length = l.length := by
  intro l
  induction l with
  | nil => intro w stops; simp [scanFill]
  | cons o rest ih =>
    intro w stops
    by_cases h : w + orderWeight o ≤ cap ∧ stops < 30
    · have := ih (w + orderWeight o) (stops + 1)
      simp only [scanFill, if_pos h, List.length_cons]
      omega
    · have := ih w stops
      simp only [scanFill, if_neg h, List.length_cons]
      omega

lemma scanFill_weight_le (cap : ℚ) :
    ∀ (l : List Order) (w : ℚ) (stops : Nat),
      (scanFill cap w stops l).1 ≠ [] →
      w + sumWeights (scanFill cap w stops l).1 ≤ cap := by
  intro l
  induction l with
  | nil => intro w stops h; simp [scanFill] at h
  | cons o rest ih =>
    intro w stops h
    by_cases hc : w + orderWeight o ≤ cap ∧ stops < 30
    · simp only [scanFill, if_pos hc] at h ⊢
      rcases eq_or_ne (scanFill cap (w + orderWeight o) (stops + 1) rest).1 [] with he | he
      · rw [he]
        simpa using hc.1
      · have := ih (w + orderWeight o) (stops + 1) he
        rw [sumWeights_cons]
        linarith
    · simp only [scanFill, if_neg hc] at h ⊢
      exact ih w stops h

lemma scanFill_stops_le (cap : ℚ) :
    ∀ (l : List Order) (w : ℚ) (stops : Nat),
      stops + (scanFill cap w stops l).1.length ≤ max 30 stops := by
  intro l
  induction l with
  | nil => intro w stops; simp [scanFill]
  | cons o rest ih =>
    intro w stops
    by_cases hc : w + orderWeight o ≤ cap ∧ stops < 30
    · have := ih (w + orderWeight o) (stops + 1)
      simp only [scanFill, if_pos hc, List.length_cons]
      omega
    · have := ih w stops
      simp only [scanFill, if_neg hc]
      omega

lemma scanFill_sublist (cap : ℚ) :
    ∀ (l : List Order) (w : ℚ) (stops : Nat),
      (scanFill cap w stops l).1.Sublist l ∧ (scanFill cap w stops l).2.Sublist l := by
  intro l
  induction l with
  | nil => intro w stops; simp [scanFill]
  | cons o rest ih =>
    intro w stops
    by_cases hc : w + orderWeight o ≤ cap ∧ stops < 30
    · simp only [scanFill, if_pos hc]
      exact ⟨(ih (w + orderWeight o) (stops + 1)).1.cons₂ o,
        (ih (w + orderWeight o) (stops + 1)).2.cons o⟩
    · simp only [scanFill, if_neg hc]
      exact ⟨(ih w stops).1.cons o, (ih w stops).2.cons₂ o⟩

lemma fillLoop_eq_scanFill (cap : ℚ) :
    ∀ (l a : List Order) (w : ℚ) (b : List Order),
      fillLoop cap a w b l =
        (a ++ (scanFill cap w a.length l).1,
         w + sumWeights (scanFill cap w a.length l).1,
         b ++ (scanFill cap w a.length l).2) := by
  intro l
  induction l with
  | nil => intro a w b; simp [fillLoop, scanFill]
  | cons o rest ih =>
    intro a w b
    by_cases hc : w + orderWeight o ≤ cap ∧ a.length < 30
    · rw [fillLoop, if_pos hc, ih]
      simp only [scanFill, if_pos hc, List.length_append, List.length_cons,
        List.length_nil, sumWeights_cons]
      refine Prod.ext ?_ (Prod.ext ?_ ?_) <;> simp [List.append_assoc]
      · ring
    · rw [fillLoop, if_neg hc, ih]
      simp only [scanFill, if_neg hc, List.length_append]
      refine Prod.ext ?_ (Prod.ext ?_ ?_) <;> simp [List.append_assoc]

lemma fillLoop_closed (cap : ℚ) (l : List Order) :
    fillLoop cap [] 0 [] l =
      ((scanFill cap 0 0 l).1, sumWeights (scanFill cap 0 0 l).1, (scanFill cap 0 0 l).2) := by
  simpa using fillLoop_eq_scanFill cap l [] 0 []

lemma planLoop_counts :
    ∀ (vs : List Vehicle) (rem : List Order),
      ((planLoop vs rem).1.map PlannedRoute.total_stops).sum = (planLoop vs rem).2.1
      ∧ (planLoop vs rem).2.1 + (planLoop vs rem).2.2.length = rem.length := by
  intro vs
  induction vs with
  | nil => intro rem; simp [planLoop]
  | cons v vsTail ih =>
    intro rem
    by_cases hrem : rem = []
    · simp [planLoop, hrem]
    · have hlen := scanFill_length (effectiveCapacity v) rem 0 0
      by_cases hfill : (scanFill (effectiveCapacity v) 0 0 rem).1 = []
      · have h2 : (scanFill (effectiveCapacity v) 0 0 rem).2.length = rem.length := by
          rw [hfill] at hlen; simpa using hlen
        have := ih (scanFill (effectiveCapacity v) 0 0 rem).2
        simp only [planLoop, if_neg hrem, fillLoop_closed, hfill, if_true, eq_self_iff_true]
        omega
      · have := ih (scanFill (effectiveCapacity v) 0 0 rem).2
        simp only [planLoop, if_neg hrem, fillLoop_closed, if_neg hfill, List.map_cons,
          List.sum_cons]
        omega

lemma planLoop_routes :
    ∀ (vs : List Vehicle) (rem : List Order) (r : PlannedRoute),
      r ∈ (planLoop vs rem).1 →
      r.status = "planned"
      ∧ r.total_stops = r.orders.length
      ∧ r.total_weight_kg = sumWeights r.orders
      ∧ r.orders ≠ []
      ∧ r.total_stops ≤ 30
      ∧ r.total_weight_kg ≤ effectiveCapacity r.vehicle
      ∧ (∀ o ∈ r.orders, o ∈ rem) := by
  intro vs
  induction vs with
  | nil => intro rem r hr; simp [planLoop] at hr
  | cons v vsTail ih =>
    intro rem r hr
    by_cases hrem : rem = []
    · simp [planLoop, hrem] at hr
    · by_cases hfill : (scanFill (effectiveCapacity v) 0 0 rem).1 = []
      · simp only [planLoop, if_neg hrem, fillLoop_closed, hfill, if_pos rfl] at hr
        have := ih (scanFill (effectiveCapacity v) 0 0 rem).2 r hr
        refine ⟨this.1, this.2.1, this.2.2.1, this.2.2.2.1, this.2.2.2.2.1,
          this.2.2.2.2.2.1, fun o ho => ?_⟩
        exact ((scanFill_sublist (effectiveCapacity v) rem 0 0).2.subset)
          (this.2.2.2.2.2.2 o ho)
      · simp only [planLoop, if_neg hrem, fillLoop_closed, if_neg hfill,
          List.mem_cons] at hr
        rcases hr with hr | hr
        · subst hr
          have hstops := scanFill_stops_le (effectiveCapacity v) rem 0 0
          have hw := scanFill_weight_le (effectiveCapacity v) rem 0 0 hfill
          refine ⟨rfl, rfl, rfl, hfill, by simpa using hstops, by simpa using hw,
            fun o ho => ?_⟩
          exact ((scanFill_sublist (effectiveCapacity v) rem 0 0).1.subset) ho
        · have := ih (scanFill (effectiveCapacity v) 0 0 rem).2 r hr
          refine ⟨this.1, this.2.1, this.2.2.1, this.2.2.2.1, this.2.2.2.2.1,
            this.2.2.2.2.2.1, fun o ho => ?_⟩
          exact ((scanFill_sublist (effectiveCapacity v) rem 0 0).2.subset)
            (this.2.2.2.2.2.2 o ho)

lemma insertAfterLe_perm (le : α → α → Bool) (x : α) :
    ∀ l : List α, (insertAfterLe le x l).Perm (x :: l) := by
  intro l
  induction l with
  | nil => simp [insertAfterLe]
  | cons y ys ih =>
    by_cases h : le y x
    · simp only [insertAfterLe, if_pos h]
      exact (ih.cons y).trans (List.Perm.swap x y ys)
    · simp [insertAfterLe, h]

lemma pySortAux_perm (le : α → α → Bool) :
    ∀ (l acc : List α),
      (l.foldl (fun acc x => insertAfterLe le x acc) acc).Perm (acc ++ l) := by
  intro l
  induction l with
  | nil => intro acc; simp
  | cons x xs ih =>
    intro acc
    simp only [List.foldl_cons]
    refine (ih (insertAfterLe le x acc)).trans ?_
    refine ((insertAfterLe_perm le x acc).append_right xs).trans ?_
    exact List.perm_middle.symm

lemma pySort_perm (le : α → α → Bool) (l : List α) : (pySort le l).Perm l := by
  simpa [pySort] using pySortAux_perm le l []

lemma sortRemainingOrders_length (l : List Order) :
    (sortRemainingOrders l).length = l.length :=
  (pySort_perm orderKeyLe l).length_eq

lemma sortRemainingOrders_mem (o : Order) (l : List Order) :
    o ∈ sortRemainingOrders l ↔ o ∈ l :=
  (pySort_perm orderKeyLe l).mem_iff

/-- Pending order with no weight, used by the concrete planner runs. -/
def exOrderPlain : Order := { id := 1 }

/-- Vehicle with NULL capacity. -/
def exVehiclePlain : Vehicle := { id := 1 }

/-- Route the planner builds from `exOrderPlain` on `exVehiclePlain`. -/
def exRoutePlain : PlannedRoute :=
  { vehicle := exVehiclePlain, status := "planned", total_stops := 1,
    total_weight_kg := 0, orders := [exOrderPlain] }

/-- Auto-plan response for the `exOrderPlain` / `exVehiclePlain` run. -/
def exPlanResPlain : AutoPlanResult := ⟨1, 1, 0, [exRoutePlain]⟩

lemma auto_plan_plain_eval :
    auto_plan_routes [exOrderPlain] [exVehiclePlain] = .ok exPlanResPlain := by
  norm_num [auto_plan_routes, sortRemainingOrders, pySort, insertAfterLe, planLoop,
    fillLoop, effectiveCapacity, orderWeight, exOrderPlain, exVehiclePlain,
    exPlanResPlain, exRoutePlain]

/-- Pending order weighing 5 kg. -/
def exOrderW5 : Order := { id := 1, total_weight_kg := some 5 }

/-- Vehicle whose `capacity_kg` column is set to 0. -/
def exVehicleCap0 : Vehicle := { id := 1, capacity_kg := some 0 }

/-- Route the planner builds from `exOrderW5` on the zero-capacity vehicle. -/
def exRouteCap0 : PlannedRoute :=
  { vehicle := exVehicleCap0, status := "planned", total_stops := 1,
    total_weight_kg := 5, orders := [exOrderW5] }

/-- Auto-plan response for the zero-capacity run. -/
def exPlanResCap0 : AutoPlanResult := ⟨1, 1, 0, [exRouteCap0]⟩

lemma auto_plan_cap0_eval :
    auto_plan_routes [exOrderW5] [exVehicleCap0] = .ok exPlanResCap0 := by
  norm_num [auto_plan_routes, sortRemainingOrders, pySort, insertAfterLe, planLoop,
    fillLoop, effectiveCapacity, orderWeight, exOrderW5, exVehicleCap0,
    exPlanResCap0, exRouteCap0]

/-- Vehicle with a 10 kg capacity. -/
def exVehicleCap10 : Vehicle := { id := 1, capacity_kg := some 10 }

/-- Route the planner builds from `exOrderW5` on the 10 kg vehicle. -/
def exRouteCap10 : PlannedRoute :=
  { vehicle := exVehicleCap10, status := "planned", total_stops := 1,
    total_weight_kg := 5, orders := [exOrderW5] }

/-- Auto-plan response for the 10 kg-capacity run. -/
def exPlanResCap10 : AutoPlanResult := ⟨1, 1, 0, [exRouteCap10]⟩

lemma auto_plan_cap10_eval :
    auto_plan_routes [exOrderW5] [exVehicleCap10] = .ok exPlanResCap10 := by
  norm_num [auto_plan_routes, sortRemainingOrders, pySort, insertAfterLe, planLoop,
    fillLoop, effectiveCapacity, orderWeight, exOrderW5, exVehicleCap10,
    exPlanResCap10, exRouteCap10]

/-- Orders of 6 kg, 7 kg and 3 kg used by the fill-pass analysis. -/
def exOrderW6 : Order := { id := 1, total_weight_kg := some 6 }

/-- Second order of the fill-pass run (7 kg). -/
def exOrderW7 : Order := { id := 2, total_weight_kg := some 7 }

/-- Third order of the fill-pass run (3 kg). -/
def exOrderW3 : Order := { id := 3, total_weight_kg := some 3 }

/-- C1: for every auto-plan run on a fetched list of pending, route-less
orders that creates at least one route, the sum of the created routes' stop
counts equals the returned `total_orders_assigned`, and `total_orders_assigned
+ unassigned_orders` equals the number of fetched orders. -/
theorem C1_auto_plan_counts (orders : List Order) (vehicles : List Vehicle)
    (res : AutoPlanResult)
    (hfetch : ∀ o ∈ orders, o.status = "pending" ∧ o.route_id = none)
    (hok : auto_plan_routes orders vehicles = .ok res)
    (hone : 1 ≤ res.routes_created) :
    (res.routes.map PlannedRoute.total_stops).sum = res.total_orders_assigned
    ∧ res.total_orders_assigned + res.unassigned_orders = orders.length := by
  by_cases hord : orders = []
  · simp only [auto_plan_routes, if_pos hord, Except.ok.injEq] at hok
    subst hok
    simp [hord]
  · by_cases hveh : vehicles = []
    · simp [auto_plan_routes, hord, hveh] at hok
    · simp only [auto_plan_routes, if_neg hord, if_neg hveh, Except.ok.injEq] at hok
      subst hok
      have h := planLoop_counts vehicles (sortRemainingOrders orders)
      refine ⟨h.1, ?_⟩
      have := sortRemainingOrders_length orders
      simp only []
      omega

/-- Witness for C1 on the concrete one-order, one-vehicle run. -/
theorem C1_auto_plan_counts_witness :
    (exPlanResPlain.routes.map PlannedRoute.total_stops).sum
        = exPlanResPlain.total_orders_assigned
    ∧ exPlanResPlain.total_orders_assigned + exPlanResPlain.unassigned_orders
        = [exOrderPlain].length :=
  C1_auto_plan_counts [exOrderPlain] [exVehiclePlain] exPlanResPlain
    (by simp [exOrderPlain]) auto_plan_plain_eval (by simp [exPlanResPlain])

/-- C2 (amended): every route created by an auto-plan run has its recorded
weight equal to the sum of its orders' weights (missing weights count as 0),
has at most 30 stops, and its weight does not exceed the vehicle's
`capacity_kg` whenever that column is set to a nonzero value; a capacity of 0
is treated as unlimited, exactly like NULL, by the `or 999999` fallback. -/
theorem C2_auto_plan_capacity (orders : List Order) (vehicles : List Vehicle)
    (res : AutoPlanResult)
    (hok : auto_plan_routes orders vehicles = .ok res) :
    ∀ r ∈ res.routes,
      r.total_weight_kg = sumWeights r.orders
      ∧ r.total_stops ≤ 30
      ∧ ∀ c, r.vehicle.capacity_kg = some c → c ≠ 0 → r.total_weight_kg ≤ c := by
  intro r hr
  by_cases hord : orders = []
  · simp only [auto_plan_routes, if_pos hord, Except.ok.injEq] at hok
    subst hok
    simp at hr
  · by_cases hveh : vehicles = []
    · simp [auto_plan_routes, hord, hveh] at hok
    · simp only [auto_plan_routes, if_neg hord, if_neg hveh, Except.ok.injEq] at hok
      subst hok
      simp only [] at hr
      have h := planLoop_routes vehicles (sortRemainingOrders orders) r hr
      refine ⟨h.2.2.1, h.2.2.2.2.1, fun c hc hc0 => ?_⟩
      have hcap : effectiveCapacity r.vehicle = c := by
        simp [effectiveCapacity, hc, hc0]
      have := h.2.2.2.2.2.1
      rw [hcap] at this
      exact this

/-- C2 counterexample: a vehicle whose `capacity_kg` is set (to 0) receives a
route of weight 5, so the claimed bound for a set capacity fails. -/
theorem C2_counterexample :
    auto_plan_routes [exOrderW5] [exVehicleCap0] = .ok exPlanResCap0
    ∧ exRouteCap0 ∈ exPlanResCap0.routes
    ∧ ¬ claimedCapacityRespected exRouteCap0 := by
  refine ⟨auto_plan_cap0_eval, by simp [exPlanResCap0], fun h => ?_⟩
  have := h 0 (by simp [exRouteCap0, exVehicleCap0])
  norm_num [exRouteCap0] at this

/-- Witness for C2 on the concrete 10 kg-capacity run. -/
theorem C2_auto_plan_capacity_witness :
    exRouteCap10.total_weight_kg = sumWeights exRouteCap10.orders
    ∧ exRouteCap10.total_stops ≤ 30
    ∧ exRouteCap10.total_weight_kg ≤ 10 := by
  have h := C2_auto_plan_capacity [exOrderW5] [exVehicleCap10] exPlanResCap10
    auto_plan_cap10_eval exRouteCap10 (by simp [exPlanResCap10])
  exact ⟨h.1, h.2.1, h.2.2 10 (by simp [exRouteCap10, exVehicleCap10]) (by norm_num)⟩

/-- C7 (amended): AutoPlanRoutes returns immediately with zero routes created
(and no error) when the fetched pending order set is empty — the vehicle set
is not even consulted; when orders exist but no vehicle is available, it does
not return zero routes but raises an HTTP 400 error. -/
theorem C7_auto_plan_empty (orders : List Order) (vehicles : List Vehicle) :
    (orders = [] → auto_plan_routes orders vehicles = .ok ⟨0, 0, 0, []⟩)
    ∧ (orders ≠ [] → vehicles = [] →
        auto_plan_routes orders vehicles
          = .error (.badRequest "No available vehicles at this hub")) := by
  constructor
  · intro h
    simp [auto_plan_routes, h]
  · intro h h2
    simp [auto_plan_routes, h, h2]

/-- Witness for C7: the two early-return branches on concrete inputs. -/
theorem C7_auto_plan_empty_witness :
    auto_plan_routes ([] : List Order) [exVehiclePlain] = .ok ⟨0, 0, 0, []⟩
    ∧ auto_plan_routes [exOrderPlain] ([] : List Vehicle)
        = .error (.badRequest "No available vehicles at this hub") :=
  ⟨(C7_auto_plan_empty [] [exVehiclePlain]).1 rfl,
   (C7_auto_plan_empty [exOrderPlain] []).2 (by simp) rfl⟩

/-- C7 counterexample: with one pending order and no available vehicle the run
raises an HTTP 400 error instead of returning zero routes created. -/
theorem C7_counterexample :
    auto_plan_routes [exOrderPlain] ([] : List Vehicle)
      = .error (.badRequest "No available vehicles at this hub")
    ∧ (ApiError.badRequest "No available vehicles at this hub").statusCode = 400 := by
  constructor
  · simp [auto_plan_routes]
  · rfl

/-- C8 (amended): one vehicle's fill pass scans the entire sorted remaining
list in order, taking exactly the orders that satisfy the cumulative
capacity-and-30-stop check at the moment they are scanned and deferring the
others — the scan does not stop at the first non-fitting order. The taken and
deferred lists are complementary subsequences of the scanned list. -/
theorem C8_fill_pass (cap : ℚ) (l : List Order) :
    fillLoop cap [] 0 [] l =
      ((scanFill cap 0 0 l).1, sumWeights (scanFill cap 0 0 l).1, (scanFill cap 0 0 l).2)
    ∧ (scanFill cap 0 0 l).1.Sublist l
    ∧ (scanFill cap 0 0 l).2.Sublist l
    ∧ (scanFill cap 0 0 l).1.length + (scanFill cap 0 0 l).2.length = l.length :=
  ⟨fillLoop_closed cap l, (scanFill_sublist cap l 0 0).1,
    (scanFill_sublist cap l 0 0).2, scanFill_length cap l 0 0⟩

/-- C8 counterexample: with capacity 10 and scanned weights [6, 7, 3] the pass
defers the 7 kg order but still takes the later 3 kg order, while the claimed
front-of-list behaviour would defer the 7 kg order and everything after it. -/
theorem C8_counterexample :
    (fillLoop 10 [] 0 [] [exOrderW6, exOrderW7, exOrderW3]).1 = [exOrderW6, exOrderW3]
    ∧ (fillLoop 10 [] 0 [] [exOrderW6, exOrderW7, exOrderW3]).2.2 = [exOrderW7]
    ∧ (specFrontFill 10 0 [] [exOrderW6, exOrderW7, exOrderW3]).1 = [exOrderW6]
    ∧ (specFrontFill 10 0 [] [exOrderW6, exOrderW7, exOrderW3]).2 = [exOrderW7, exOrderW3]
    ∧ exOrderW3 ∈ (fillLoop 10 [] 0 [] [exOrderW6, exOrderW7, exOrderW3]).1 := by
  norm_num [fillLoop, specFrontFill, orderWeight, exOrderW6, exOrderW7, exOrderW3]

lemma mem_autoPlanUpdatedOrders {o : Order} {routes : List PlannedRoute}
    (ho : o ∈ autoPlanUpdatedOrders routes) :
    ∃ rid r o0, r ∈ routes ∧ o0 ∈ r.orders ∧ o = autoPlanOrderUpdate rid o0 := by
  simp only [autoPlanUpdatedOrders, assignRouteIds, List.mem_flatten, List.mem_map] at ho
  obtain ⟨l, ⟨p, hp, rfl⟩, hol⟩ := ho
  obtain ⟨q, hq, rfl⟩ := hp
  obtain ⟨o0, ho0, rfl⟩ := List.mem_map.mp hol
  refine ⟨q.1 + 1, q.2, o0, ?_, ho0, rfl⟩
  rw [List.enum_eq_zip_range] at hq
  exact (List.of_mem_zip (by exact hq)).2

/-- C10 (amended): after an auto-plan run every assigned order has `route_id`
set while its `driver_id` is left untouched — null for the fetched pending
orders — so route_id and driver_id are not both set or both null for
auto-planned orders; the pairing is only restored by a later route
assignment. -/
theorem C10_auto_plan_route_only (orders : List Order) (vehicles : List Vehicle)
    (res : AutoPlanResult)
    (hok : auto_plan_routes orders vehicles = .ok res)
    (hdrv : ∀ o ∈ orders, o.driver_id = none) :
    ∀ o ∈ autoPlanUpdatedOrders res.routes,
      o.route_id.isSome = true ∧ o.driver_id = none := by
  intro o ho
  obtain ⟨rid, r, o0, hr, ho0, rfl⟩ := mem_autoPlanUpdatedOrders ho
  by_cases hord : orders = []
  · simp only [auto_plan_routes, if_pos hord, Except.ok.injEq] at hok
    subst hok
    simp [autoPlanUpdatedOrders, assignRouteIds] at hr
  · by_cases hveh : vehicles = []
    · simp [auto_plan_routes, hord, hveh] at hok
    · simp only [auto_plan_routes, if_neg hord, if_neg hveh, Except.ok.injEq] at hok
      subst hok
      simp only [] at hr
      have h := planLoop_routes vehicles (sortRemainingOrders orders) r hr
      have ho0mem : o0 ∈ orders :=
        (sortRemainingOrders_mem o0 orders).mp (h.2.2.2.2.2.2 o0 ho0)
      exact ⟨rfl, hdrv o0 ho0mem⟩

/-- Witness for C10 on the concrete one-order, one-vehicle run. -/
theorem C10_auto_plan_route_only_witness :
    ({ exOrderPlain with route_id := some 1 } : Order).route_id.isSome = true
    ∧ ({ exOrderPlain with route_id := some 1 } : Order).driver_id = none :=
  C10_auto_plan_route_only [exOrderPlain] [exVehiclePlain] exPlanResPlain
    auto_plan_plain_eval (by simp [exOrderPlain])
    { exOrderPlain with route_id := some 1 }
    (by simp [autoPlanUpdatedOrders, assignRouteIds, autoPlanOrderUpdate,
      exPlanResPlain, exRoutePlain])

/-- C10 counterexample: the auto-planned order ends with `route_id = some 1`
and `driver_id = null`, violating the claimed both-set-or-both-null pairing. -/
theorem C10_counterexample :
    auto_plan_routes [exOrderPlain] [exVehiclePlain] = .ok exPlanResPlain
    ∧ autoPlanUpdatedOrders exPlanResPlain.routes
        = [{ exOrderPlain with route_id := some 1 }]
    ∧ routeDriverPaired { exOrderPlain with route_id := some 1 } = false := by
  refine ⟨auto_plan_plain_eval, ?_, ?_⟩
  · simp [autoPlanUpdatedOrders, assignRouteIds, autoPlanOrderUpdate,
      exPlanResPlain, exRoutePlain]
  · simp [routeDriverPaired, exOrderPlain]

/-- Route in status `planned` with driver and vehicle already set. -/
def exRoutePlanned : RouteRec :=
  { id := 1, driver_id := some 7, vehicle_id := some 9, status := "planned" }

/-- Database holding just `exRoutePlanned`. -/
def exDbDispatch : Db := { routes := [exRoutePlanned] }

/-- Route in status `assigned` whose driver is NULL. -/
def exRouteNoDriver : RouteRec :=
  { id := 1, vehicle_id := some 9, status := "assigned" }

/-- Database holding just `exRouteNoDriver`. -/
def exDbNoDriver : Db := { routes := [exRouteNoDriver] }

/-- C3 (amended): DispatchRoute on an existing route succeeds exactly when
both driver_id and vehicle_id are non-null — the route's status is never
consulted, so a `planned` route with driver and vehicle also dispatches;
whenever driver_id or vehicle_id is null it fails with an HTTP 400 error
("Route must have driver and vehicle assigned before dispatch") raised before
any write, so the route's status and all other state remain unchanged. -/
theorem C3_dispatch (s : Db) (rid now : Nat) (r : RouteRec)
    (hfind : s.routes.find? (fun q => q.id = rid) = some r) :
    (r.driver_id = none ∨ r.vehicle_id = none →
      dispatch_route s rid now =
        (s, .error (.badRequest "Route must have driver and vehicle assigned before dispatch")))
    ∧ (r.driver_id ≠ none → r.vehicle_id ≠ none →
      (dispatch_route s rid now).2
          = .ok { r with status := "in_progress", start_time := some now }) := by
  constructor
  · intro h
    simp only [dispatch_route, hfind]
    rw [if_pos h]
  · intro h1 h2
    simp only [dispatch_route, hfind]
    rw [if_neg (by rintro (h | h) <;> [exact h1 h; exact h2 h])]

/-- Witness for C3: dispatch of `exRouteNoDriver` (driver NULL) fails with the
400 error and leaves the database unchanged. -/
theorem C3_dispatch_witness :
    dispatch_route exDbNoDriver 1 5
      = (exDbNoDriver,
         .error (.badRequest "Route must have driver and vehicle assigned before dispatch")) :=
  (C3_dispatch exDbNoDriver 1 5 exRouteNoDriver (by decide)).1 (Or.inl rfl)

/-- C3 counterexample: route 1 is in status `planned`, not `assigned`, with
driver and vehicle set — yet DispatchRoute succeeds, refuting "succeeds only
if the route's status is `assigned`". -/
theorem C3_counterexample :
    exRoutePlanned.status = "planned"
    ∧ (dispatch_route exDbDispatch 1 5).2
        = .ok { exRoutePlanned with status := "in_progress", start_time := some 5 } := by
  constructor
  · rfl
  · simp [dispatch_route, exDbDispatch, exRoutePlanned, List.find?]

/-- Database holding just the pending order `exOrderPlain`. -/
def exDbOrders : Db := { orders := [exOrderPlain] }

/-- C9 (amended): the order-status writers do not consult the transition
graph. For an existing order: `return_to_hub` writes `returned_to_hub`
whatever the current status is; `update_order` writes any caller-supplied
status string verbatim; only `cancel_order` guards a transition, refusing
exactly when the current status is `delivered` or `cancelled` and writing
`cancelled` otherwise. Out-of-graph transitions such as
pending → returned_to_hub are therefore reachable. -/
theorem C9_status_writes (s : Db) (oid now : Nat) (u : OrderUpdate) (o : Order)
    (hfind : s.orders.find? (fun r => r.id = oid) = some o) :
    ((return_to_hub s oid now).2 = .ok "Order marked as returned to hub"
      ∧ { o with status := "returned_to_hub", returned_at := some now }
          ∈ (return_to_hub s oid now).1.orders)
    ∧ (∀ st, u.status = some st →
        (applyOrderUpdate u o).status = st
        ∧ (u.isEmptyPatch = false →
            (update_order s oid u).2 = .ok (applyOrderUpdate u o)))
    ∧ ((o.status = "delivered" ∨ o.status = "cancelled") →
        cancel_order s oid
          = (s, .error (.badRequest ("Cannot cancel order with status: " ++ o.status))))
    ∧ (¬(o.status = "delivered" ∨ o.status = "cancelled") →
        (cancel_order s oid).2 = .ok "Order cancelled"
        ∧ { o with status := "cancelled" } ∈ (cancel_order s oid).1.orders) := by
  have hmem : o ∈ s.orders := List.mem_of_find?_eq_some hfind
  have hid : o.id = oid := by
    have := List.find?_some hfind
    simpa using this
  have hany : s.orders.any (fun r => r.id = oid) = true := by
    rw [List.any_eq_true]
    exact ⟨o, hmem, by simpa using hid⟩
  refine ⟨⟨?_, ?_⟩, ?_, ?_, ?_⟩
  · simp [return_to_hub, hany]
  · simp only [return_to_hub, hany, if_true]
    have := List.mem_map_of_mem
      (f := fun r => if r.id = oid then
        { r with status := "returned_to_hub", returned_at := some now } else r) hmem
    simpa [hid] using this
  · intro st hst
    refine ⟨by simp [applyOrderUpdate, hst], fun hne => ?_⟩
    simp only [update_order, hne, Bool.false_eq_true, if_false, hfind]
  · intro h
    simp only [cancel_order, hfind]
    rw [if_pos h]
  · intro h
    constructor
    · simp only [cancel_order, hfind]
      rw [if_neg h]
    · simp only [cancel_order, hfind]
      rw [if_neg h]
      have := List.mem_map_of_mem
        (f := fun r => if r.id = oid then { r with status := "cancelled" } else r) hmem
      simpa [hid] using this

/-- Witness for C9: the three writers exercised on the pending order 1. -/
theorem C9_status_writes_witness :
    (return_to_hub exDbOrders 1 5).2 = .ok "Order marked as returned to hub"
    ∧ ({ exOrderPlain with status := "returned_to_hub", returned_at := some 5 } : Order)
        ∈ (return_to_hub exDbOrders 1 5).1.orders
    ∧ (applyOrderUpdate { status := some "delivered" } exOrderPlain).status = "delivered"
    ∧ (cancel_order exDbOrders 1).2 = .ok "Order cancelled" := by
  have h := C9_status_writes exDbOrders 1 5 { status := some "delivered" } exOrderPlain
    (by decide)
  exact ⟨h.1.1, h.1.2, (h.2.1 "delivered" rfl).1, (h.2.2.2 (by decide)).1⟩

/-- C9 counterexample: `return_to_hub` succeeds on an order whose status is
`pending` and writes `returned_to_hub`, although
pending → returned_to_hub is not an edge of the claimed transition graph. -/
theorem C9_counterexample :
    exOrderPlain.status = "pending"
    ∧ (return_to_hub exDbOrders 1 5).2 = .ok "Order marked as returned to hub"
    ∧ (return_to_hub exDbOrders 1 5).1.orders
        = [{ exOrderPlain with status := "returned_to_hub", returned_at := some 5 }]
    ∧ specOrderEdge "pending" "returned_to_hub" = false := by
  refine ⟨rfl, ?_, ?_, by decide⟩ <;>
    simp [return_to_hub, exDbOrders, exOrderPlain]

lemma eq_singleton_of_getLast? {α : Type _} {l : List α} {t : α}
    (hlen : l.length ≤ 1) (hlast : l.getLast? = some t) : l = [t] := by
  match l with
  | [] => simp at hlast
  | [a] =>
    have : a = t := by simpa using hlast
    rw [this]
  | a :: b :: r => simp at hlen

lemma unverified_after_verify_mark (s : Db) (oid : Nat) (typ : String) (t : OtpToken)
    (ht : unverifiedTokens s oid typ = [t]) :
    unverifiedTokens
      { s with tokens := s.tokens.map fun x =>
          if x.id = t.id then { x with is_verified := true } else x } oid typ = [] := by
  unfold unverifiedTokens at ht ⊢
  rw [List.filter_eq_nil_iff]
  intro a ha
  obtain ⟨x0, hx0, rfl⟩ := List.mem_map.mp ha
  by_cases hxid : x0.id = t.id
  · simp [hxid]
  · rw [if_neg hxid]
    intro hp
    have : x0 ∈ s.tokens.filter fun x =>
        decide (x.order_id = oid ∧ x.otp_type = typ ∧ x.is_verified = false) :=
      List.mem_filter.mpr ⟨hx0, hp⟩
    rw [ht] at this
    exact hxid (by simpa using congrArg OtpToken.id (List.mem_singleton.mp this))

lemma filter_invalidate_other (l : List OtpToken) (oid : Nat) (typ : String)
    (oid2 : Nat) (typ2 : String) (hne : ¬(oid2 = oid ∧ typ2 = typ)) :
    (l.map fun t => if t.order_id = oid ∧ t.otp_type = typ ∧ t.is_verified = false
        then { t with is_verified := true } else t).filter
      (fun t => t.order_id = oid2 ∧ t.otp_type = typ2 ∧ t.is_verified = false)
      = l.filter (fun t => t.order_id = oid2 ∧ t.otp_type = typ2 ∧ t.is_verified = false) := by
  induction l with
  | nil => rfl
  | cons x xs ih =>
    by_cases hx : x.order_id = oid ∧ x.otp_type = typ ∧ x.is_verified = false
    · have hp2 : ¬(x.order_id = oid2 ∧ x.otp_type = typ2 ∧ x.is_verified = false) := by
        rintro ⟨h1, h2, h3⟩
        exact hne ⟨by rw [← h1, hx.1], by rw [← h2, hx.2.1]⟩
      simp only [List.map_cons, if_pos hx, List.filter_cons]
      rw [if_neg (by simp), if_neg (by simpa using hp2)]
      exact ih
    · simp only [List.map_cons, if_neg hx, List.filter_cons]
      by_cases hp2 : x.order_id = oid2 ∧ x.otp_type = typ2 ∧ x.is_verified = false
      · rw [if_pos (by simpa using hp2), if_pos (by simpa using hp2), ih]
      · rw [if_neg (by simpa using hp2), if_neg (by simpa using hp2), ih]

lemma filter_invalidate_self (l : List OtpToken) (oid : Nat) (typ : String) :
    (l.map fun t => if t.order_id = oid ∧ t.otp_type = typ ∧ t.is_verified = false
        then { t with is_verified := true } else t).filter
      (fun t => t.order_id = oid ∧ t.otp_type = typ ∧ t.is_verified = false) = [] := by
  rw [List.filter_eq_nil_iff]
  intro a ha
  obtain ⟨x0, hx0, rfl⟩ := List.mem_map.mp ha
  by_cases hx : x0.order_id = oid ∧ x0.otp_type = typ ∧ x0.is_verified = false
  · simp [hx]
  · rw [if_neg hx]
    simpa using hx

lemma unverifiedTokens_send (s : Db) (oid : Nat) (typ : String) (rand : Nat → Fin 10)
    (now newId : Nat) (o : Order)
    (ho : s.orders.find? (fun r => r.id = oid) = some o) :
    unverifiedTokens (send_otp s oid typ rand now newId).1 oid typ
      = [freshOtpToken oid typ rand now newId] := by
  simp only [send_otp, ho]
  unfold unverifiedTokens
  rw [List.filter_append, filter_invalidate_self]
  simp [freshOtpToken]

lemma unverifiedTokens_send_other (s : Db) (oid : Nat) (typ : String)
    (rand : Nat → Fin 10) (now newId : Nat) (o : Order)
    (ho : s.orders.find? (fun r => r.id = oid) = some o)
    (oid2 : Nat) (typ2 : String) (hne : ¬(oid2 = oid ∧ typ2 = typ)) :
    unverifiedTokens (send_otp s oid typ rand now newId).1 oid2 typ2
      = unverifiedTokens s oid2 typ2 := by
  simp only [send_otp, ho]
  unfold unverifiedTokens
  rw [List.filter_append, filter_invalidate_other s.tokens oid typ oid2 typ2 hne]
  have : ¬(freshOtpToken oid typ rand now newId).order_id = oid2
      ∨ ¬(freshOtpToken oid typ rand now newId).otp_type = typ2 := by
    by_cases h1 : oid2 = oid
    · right
      have h2 : ¬typ2 = typ := fun h => hne ⟨h1, h⟩
      simpa [freshOtpToken] using fun h => h2 h.symm
    · left
      simpa [freshOtpToken] using fun h => h1 h.symm
  rcases this with h | h <;> simp [h]

/-- C4 (amended): VerifyOtp for `(order_id, otp_type)`: when no unverified
token exists it fails with an HTTP 400 error ("No active OTP found") — not a
404 NotFound; when the supplied code differs from the latest unverified
token's code it returns a failed (success=false) result without raising; when
the token is expired it returns an expired result; otherwise it marks the
token verified and returns success, after which a second verify with the same
correct code fails with the same 400 error (assuming at most one unverified
token existed for the key, the invariant `send_otp` maintains). -/
theorem C4_verify_otp (s : Db) (oid : Nat) (typ code : String) (now : Nat) :
    (unverifiedTokens s oid typ = [] →
      verify_otp s oid typ code now = (s, .error (.badRequest "No active OTP found")))
    ∧ ∀ t, (unverifiedTokens s oid typ).getLast? = some t →
        (t.otp_code ≠ code →
          verify_otp s oid typ code now = (s, .ok ⟨false, "Invalid OTP", none⟩))
        ∧ (t.otp_code = code → t.expires_at < now →
          verify_otp s oid typ code now = (s, .ok ⟨false, "OTP has expired", none⟩))
        ∧ (t.otp_code = code → ¬ t.expires_at < now →
          (verify_otp s oid typ code now).2 = .ok ⟨true, "OTP verified successfully", none⟩
          ∧ ((unverifiedTokens s oid typ).length ≤ 1 →
              unverifiedTokens (verify_otp s oid typ code now).1 oid typ = []
              ∧ ∀ code2 now2,
                  verify_otp (verify_otp s oid typ code now).1 oid typ code2 now2
                    = ((verify_otp s oid typ code now).1,
                       .error (.badRequest "No active OTP found")))) := by
  constructor
  · intro h
    simp [verify_otp, h]
  · intro t hlast
    refine ⟨?_, ?_, ?_⟩
    · intro hne
      simp only [verify_otp, hlast]
      rw [if_pos hne]
    · intro heq hexp
      simp only [verify_otp, hlast]
      rw [if_neg (fun hc => hc heq), if_pos hexp]
    · intro heq hexp
      have hstate : (verify_otp s oid typ code now).1
          = { s with tokens := s.tokens.map fun x =>
              if x.id = t.id then { x with is_verified := true } else x } := by
        simp only [verify_otp, hlast]
        rw [if_neg (fun hc => hc heq), if_neg hexp]
      constructor
      · simp only [verify_otp, hlast]
        rw [if_neg (fun hc => hc heq), if_neg hexp]
      · intro hlen
        have hsingle : unverifiedTokens s oid typ = [t] :=
          eq_singleton_of_getLast? hlen hlast
        have hempty : unverifiedTokens (verify_otp s oid typ code now).1 oid typ = [] := by
          rw [hstate]
          exact unverified_after_verify_mark s oid typ t hsingle
        refine ⟨hempty, fun code2 now2 => ?_⟩
        generalize hS : (verify_otp s oid typ code now).1 = s2 at hempty ⊢
        simp [verify_otp, hempty]

/-- Unverified delivery token for order 1 (code 123456, expires at tick 600). -/
def exToken : OtpToken :=
  { id := 1, order_id := 1, otp_code := "123456", otp_type := "delivery",
    is_verified := false, expires_at := 600, created_at := 0 }

/-- Database holding order 1 and its unverified token. -/
def exDbOtp : Db := { orders := [exOrderPlain], tokens := [exToken] }

/-- Witness for C4: the correct, unexpired code verifies exactly once; the
second attempt with the same code fails with the 400 error. -/
theorem C4_verify_otp_witness :
    (verify_otp exDbOtp 1 "delivery" "123456" 10).2
        = .ok ⟨true, "OTP verified successfully", none⟩
    ∧ verify_otp (verify_otp exDbOtp 1 "delivery" "123456" 10).1 1 "delivery" "123456" 11
        = ((verify_otp exDbOtp 1 "delivery" "123456" 10).1,
           .error (.badRequest "No active OTP found")) := by
  have h := ((C4_verify_otp exDbOtp 1 "delivery" "123456" 10).2 exToken (by decide)).2.2
    (by decide) (by decide)
  exact ⟨h.1, (h.2 (by decide)).2 "123456" 11⟩

/-- C4 counterexample: with no unverified token stored, VerifyOtp raises the
HTTP 400 error "No active OTP found", whose status code is not 404 — the
claimed NotFound failure does not occur. -/
theorem C4_counterexample :
    (verify_otp exDbOrders 1 "delivery" "123456" 0).2
        = .error (.badRequest "No active OTP found")
    ∧ (ApiError.badRequest "No active OTP found").statusCode = 400
    ∧ (ApiError.badRequest "No active OTP found").statusCode ≠ 404 := by
  refine ⟨?_, rfl, by decide⟩
  simp [verify_otp, unverifiedTokens, exDbOrders]

/-- C5: SendOtp on an existing order answers success with a 10-minute expiry;
the generated code is exactly 6 numeric digits; afterwards the freshly
inserted token is the only unverified token for `(order_id, otp_type)` and
other keys are untouched, so the at-most-one-unverified-token invariant is
established for the sent key and preserved everywhere; a second send marks
the first token verified even though it was never entered. -/
theorem C5_send_otp (s : Db) (oid : Nat) (typ : String) (rand : Nat → Fin 10)
    (now newId : Nat) (o : Order)
    (horder : s.orders.find? (fun r => r.id = oid) = some o) :
    (send_otp s oid typ rand now newId).2
        = .ok ⟨true, "OTP sent to " ++ maskPhone o.customer_phone, some (now + 600)⟩
    ∧ (generate_otp rand).length = 6
    ∧ (∀ c ∈ (generate_otp rand).data, c.isDigit = true)
    ∧ (freshOtpToken oid typ rand now newId).otp_code = generate_otp rand
    ∧ (freshOtpToken oid typ rand now newId).expires_at = now + 600
    ∧ unverifiedTokens (send_otp s oid typ rand now newId).1 oid typ
        = [freshOtpToken oid typ rand now newId]
    ∧ (∀ oid2 typ2, ¬(oid2 = oid ∧ typ2 = typ) →
        unverifiedTokens (send_otp s oid typ rand now newId).1 oid2 typ2
          = unverifiedTokens s oid2 typ2)
    ∧ (∀ oid2 typ2, (unverifiedTokens s oid2 typ2).length ≤ 1 →
        (unverifiedTokens (send_otp s oid typ rand now newId).1 oid2 typ2).length ≤ 1)
    ∧ (∀ rand2 now2 id2,
        { freshOtpToken oid typ rand now newId with is_verified := true }
          ∈ (send_otp (send_otp s oid typ rand now newId).1 oid typ rand2 now2 id2).1.tokens) := by
  refine ⟨?_, ?_, ?_, rfl, rfl, unverifiedTokens_send s oid typ rand now newId o horder,
    fun oid2 typ2 hne =>
      unverifiedTokens_send_other s oid typ rand now newId o horder oid2 typ2 hne,
    ?_, ?_⟩
  · simp [send_otp, horder]
  · simp [generate_otp]
  · intro c hc
    simp only [generate_otp, String.data] at hc
    obtain ⟨i, _, rfl⟩ := List.mem_map.mp hc
    have : ∀ d : Fin 10, (digitChar d).isDigit = true := by decide
    exact this (rand i)
  · intro oid2 typ2 hlen
    by_cases hkey : oid2 = oid ∧ typ2 = typ
    · rw [hkey.1, hkey.2, unverifiedTokens_send s oid typ rand now newId o horder]
      simp
    · rw [unverifiedTokens_send_other s oid typ rand now newId o horder oid2 typ2 hkey]
      exact hlen
  · intro rand2 now2 id2
    have hfreshmem : freshOtpToken oid typ rand now newId
        ∈ (send_otp s oid typ rand now newId).1.tokens := by
      simp [send_otp, horder]
    have horder2 : (send_otp s oid typ rand now newId).1.orders.find?
        (fun r => r.id = oid) = some o := by
      simp [send_otp, horder]
    generalize hS : (send_otp s oid typ rand now newId).1 = s1 at hfreshmem horder2 ⊢
    simp only [send_otp, horder2]
    refine List.mem_append.mpr (Or.inl ?_)
    have hm := List.mem_map_of_mem
      (f := fun t => if t.order_id = oid ∧ t.otp_type = typ ∧ t.is_verified = false
        then { t with is_verified := true } else t) hfreshmem
    simpa [freshOtpToken] using hm

/-- Witness for C5: a concrete send on order 1 followed by a second send. -/
theorem C5_send_otp_witness :
    (send_otp exDbOrders 1 "delivery" (fun _ => 0) 0 1).2
        = .ok ⟨true, "OTP sent to " ++ maskPhone exOrderPlain.customer_phone, some 600⟩
    ∧ (generate_otp (fun _ => (0 : Fin 10))).length = 6
    ∧ unverifiedTokens (send_otp exDbOrders 1 "delivery" (fun _ => 0) 0 1).1 1 "delivery"
        = [freshOtpToken 1 "delivery" (fun _ => 0) 0 1]
    ∧ { freshOtpToken 1 "delivery" (fun _ => 0) 0 1 with is_verified := true }
        ∈ (send_otp (send_otp exDbOrders 1 "delivery" (fun _ => 0) 0 1).1
            1 "delivery" (fun _ => 0) 60 2).1.tokens := by
  have h := C5_send_otp exDbOrders 1 "delivery" (fun _ => 0) 0 1 exOrderPlain (by decide)
  exact ⟨h.1, h.2.1, h.2.2.2.2.2.1, h.2.2.2.2.2.2.2.2 (fun _ => 0) 60 2⟩

@[simp] lemma except_toOption_ok {ε α : Type _} (a : α) :
    (Except.ok a : Except ε α).toOption = some a := rfl

@[simp] lemma except_toOption_error {ε α : Type _} (e : ε) :
    (Except.error e : Except ε α).toOption = none := rfl

lemma uploadLoop_counts (hub imp : Nat) :
    ∀ (rows : List Row) (i : Nat),
      (uploadLoop hub imp i rows).1 + (uploadLoop hub imp i rows).2.1 = rows.length
      ∧ (uploadLoop hub imp i rows).2.2.2
          = rows.filterMap (fun row => (process_row hub imp row).toOption)
      ∧ (uploadLoop hub imp i rows).2.2.1.length = (uploadLoop hub imp i rows).2.1 := by
  intro rows
  induction rows with
  | nil => intro i; simp [uploadLoop]
  | cons row rest ih =>
    intro i
    have h := ih (i + 1)
    cases hh : process_row hub imp row with
    | ok o =>
      simp only [uploadLoop, hh, List.filterMap_cons, except_toOption_ok, List.length_cons]
      refine ⟨by omega, ?_, h.2.2⟩
      rw [h.2.1]
    | error e =>
      simp only [uploadLoop, hh, List.filterMap_cons, except_toOption_error, List.length_cons]
      refine ⟨by omega, h.2.1, by simpa using h.2.2⟩

lemma uploadLoop_error_mem (hub imp : Nat) :
    ∀ (rows : List Row) (i k : Nat) (hk : k < rows.length) (e : String),
      process_row hub imp (rows.get ⟨k, hk⟩) = .error e →
      (i + k, e) ∈ (uploadLoop hub imp i rows).2.2.1 := by
  intro rows
  induction rows with
  | nil => intro i k hk; simp at hk
  | cons row rest ih =>
    intro i k hk e hpr
    cases k with
    | zero =>
      simp only [List.get] at hpr
      simp [uploadLoop, hpr]
    | succ k2 =>
      simp only [List.get] at hpr
      have hmem := ih (i + 1) k2 (by simpa using hk) e hpr
      have harith : (i + 1) + k2 = i + (k2 + 1) := by omega
      cases hh : process_row hub imp row with
      | ok o =>
        simp only [uploadLoop, hh]
        rw [← harith]
        exact hmem
      | error e2 =>
        simp only [uploadLoop, hh, List.mem_cons]
        right
        rw [← harith]
        exact hmem

lemma process_row_error_of_requiredMissing (hub imp : Nat) (row : Row)
    (h : requiredMissing row = true) :
    ∃ e, process_row hub imp row = .error e := by
  unfold process_row
  by_cases h1 : (find_field row (requiredAliases "customer_name")).getD "" = ""
  · exact ⟨"Missing customer_name", by rw [if_pos h1]⟩
  · by_cases h2 : (find_field row (requiredAliases "customer_phone")).getD "" = ""
    · exact ⟨"Missing customer_phone", by rw [if_neg h1, if_pos h2]⟩
    · by_cases h3 : (find_field row (requiredAliases "delivery_address")).getD "" = ""
      · exact ⟨"Missing delivery_address", by rw [if_neg h1, if_neg h2, if_pos h3]⟩
      · by_cases h4 : (find_field row (requiredAliases "product_description")).getD "" = ""
        · exact ⟨"Missing product_description",
            by rw [if_neg h1, if_neg h2, if_neg h3, if_pos h4]⟩
        · exfalso
          unfold requiredMissing at h
          simp [h1, h2, h3, h4] at h

/-- C6: for every CSV import run, `processed + failed = total_records`; the
created `delivery_orders` rows are exactly the outputs of the successfully
processed rows, so a row missing a required field (such as `customer_phone`
under all its aliases) creates no order, fails with a captured per-row error
at its 1-based row number, and leaves every other row processed; the response
carries at most the first 20 errors, cut from the full log finalized on the
batch record. -/
theorem C6_upload_csv (hub imp : Nat) (rows : List Row) :
    (upload_csv hub imp rows).batch.total_records = rows.length
    ∧ (upload_csv hub imp rows).batch.processed + (upload_csv hub imp rows).batch.failed
        = (upload_csv hub imp rows).batch.total_records
    ∧ (upload_csv hub imp rows).summary.errors
        = ((upload_csv hub imp rows).batch.error_log.getD []).take 20
    ∧ (upload_csv hub imp rows).summary.errors.length ≤ 20
    ∧ (upload_csv hub imp rows).createdOrders
        = rows.filterMap (fun row => (process_row hub imp row).toOption)
    ∧ ∀ k (hk : k < rows.length), requiredMissing (rows.get ⟨k, hk⟩) = true →
        ∃ e, process_row hub imp (rows.get ⟨k, hk⟩) = .error e
          ∧ (k + 1, e) ∈ ((upload_csv hub imp rows).batch.error_log.getD []) := by
  have hc := uploadLoop_counts hub imp rows 1
  refine ⟨rfl, by simpa [upload_csv] using hc.1, ?_, ?_, by simpa [upload_csv] using hc.2.1,
    ?_⟩
  · by_cases herr : (uploadLoop hub imp 1 rows).2.2.1 = []
    · simp [upload_csv, herr]
    · simp [upload_csv, herr]
  · simp only [upload_csv, List.length_take]
    omega
  · intro k hk hmiss
    obtain ⟨e, he⟩ := process_row_error_of_requiredMissing hub imp (rows.get ⟨k, hk⟩) hmiss
    have hmem := uploadLoop_error_mem hub imp rows 1 k hk e he
    have harith : 1 + k = k + 1 := by omega
    rw [harith] at hmem
    have herr : (uploadLoop hub imp 1 rows).2.2.1 ≠ [] := by
      intro hnil
      rw [hnil] at hmem
      simp at hmem
    refine ⟨e, he, ?_⟩
    simpa [upload_csv, herr] using hmem

/-- Valid CSV row: all four required fields present under aliases. -/
def exRowOk : Row :=
  [("name", "Alice"), ("phone", "9876543210"), ("address", "12 A St"), ("product", "Shoes")]

/-- CSV row with no phone column under any alias. -/
def exRowNoPhone : Row := [("name", "Bob"), ("address", "34 B St"), ("product", "Bag")]

/-- Witness for C6 on a two-row import whose second row lacks a phone. -/
theorem C6_upload_csv_witness :
    (upload_csv 1 1 [exRowOk, exRowNoPhone]).batch.total_records = 2
    ∧ (upload_csv 1 1 [exRowOk, exRowNoPhone]).batch.processed
        + (upload_csv 1 1 [exRowOk, exRowNoPhone]).batch.failed = 2
    ∧ (upload_csv 1 1 [exRowOk, exRowNoPhone]).summary.errors
        = ((upload_csv 1 1 [exRowOk, exRowNoPhone]).batch.error_log.getD []).take 20
    ∧ ∃ e, process_row 1 1 exRowNoPhone = .error e
        ∧ (2, e) ∈ ((upload_csv 1 1 [exRowOk, exRowNoPhone]).batch.error_log.getD []) := by
  have h := C6_upload_csv 1 1 [exRowOk, exRowNoPhone]
  refine ⟨h.1, h.2.1.trans h.1, h.2.2.1, ?_⟩
  obtain ⟨e, he, hmem⟩ := h.2.2.2.2.2 1 (by decide) (by decide)
  exact ⟨e, he, hmem⟩

end LMA
